import Mathlib

/-!
Verification of a set of Java-build helper scripts: an argument-file builder
for javac, two counters of distinct marker-file contents, a test-report
information extractor, and shared path utilities.  Strings are modelled as
lists of characters; files are modelled by their content strings; directory
trees are modelled by an inductive tree type.  The functions below are
shallow embeddings of the corresponding Python functions, keeping Python's
semantics for readline (the trailing newline is kept), str.replace (every
occurrence is replaced, left to right, non-overlapping), str.split,
os.path.splitext, os.path.dirname and os.walk.
-/

abbrev Str := List Char

/-- Character data of a string literal, used to write `Str` values. -/
def str (s : String) : Str := s.data

/-- Python file.readline(): the first line of the content, including the
terminating newline when one is present. -/
def readline : Str → Str
  | [] => []
  | c :: rest => if c = '\n' then ['\n'] else c :: readline rest

/-- The first line of a string, without the terminating newline. -/
def pyFirstLine : Str → Str
  | [] => []
  | c :: rest => if c = '\n' then [] else c :: pyFirstLine rest

/-- Prepend a character to the first piece of a decomposition, starting a
fresh piece when there is none. -/
def consLine (c : Char) : List Str → List Str
  | [] => [[c]]
  | l :: ls => (c :: l) :: ls

/-- Python str.splitlines() restricted to the newline separator: the list of
lines of a text, a final trailing newline not yielding an extra empty line. -/
def pyLines : Str → List Str
  | [] => []
  | c :: rest => if c = '\n' then [] :: pyLines rest else consLine c (pyLines rest)

/-- Python sep.join(items). -/
def pyJoin (sep : Str) : List Str → Str
  | [] => []
  | [x] => x
  | x :: y :: rest => x ++ sep ++ pyJoin sep (y :: rest)

/-- Python file.readlines(): the lines of the content, each keeping its
terminating newline (the last line may lack one). -/
def readlines : Str → List Str
  | [] => []
  | c :: rest =>
    if c = '\n' then ['\n'] :: readlines rest else consLine c (readlines rest)

/-- Fuel-driven core of Python str.replace: scan left to right, replacing
each non-overlapping occurrence of `pat`.  The fuel is always instantiated
with the length of the scanned string, which suffices. -/
def raFuel (pat repl : Str) : Nat → Str → Str
  | _, [] => []
  | 0, s => s
  | Nat.succ fuel, c :: rest =>
    if pat ≠ [] ∧ pat <+: (c :: rest) then
      repl ++ raFuel pat repl fuel (List.drop (pat.length - 1) rest)
    else c :: raFuel pat repl fuel rest

/-- Python s.replace(pat, repl) for a non-empty pattern. -/
def replaceAll (pat repl s : Str) : Str := raFuel pat repl s.length s

/-- Shared dependency-file handling of construct_javac_args.py and
extract_test_info.py: read the first line of the dependency file and turn it
into a classpath suffix, empty when the readline result is falsy. -/
def dependency_path_of (dep : Str) : Str :=
  if readline dep = [] then [] else ':' :: readline dep

/-- construct_javac_args.py: content of the written output file, given the
dependency-file content, the classpath, target and sourcepath arguments, the
project path and the list of discovered source files. -/
def construct_javac_args (dep cp tgt sp pp : Str) (files : List Str) : Str :=
  let src := files.map (fun p => replaceAll (pp ++ ['/']) [] p)
  str "-classpath " ++ cp ++ dependency_path_of dep ++ ['\n'] ++
    (str "-sourcepath " ++ sp ++ ['\n'] ++
      (str "-d " ++ tgt ++ ['\n'] ++ pyJoin ['\n'] src))

/-- A directory: its files' names and its subdirectories, each with a name. -/
inductive FsTree where
  | node : List Str → List (Str × FsTree) → FsTree

/-- Python os.path.join for the cases arising from os.walk: an absolute
second component wins; otherwise the components are glued with a single
separator. -/
def pjoin (r f : Str) : Str :=
  if f.head? = some '/' then f
  else if r = [] then f
  else if r.getLast? = some '/' then r ++ f
  else r ++ '/' :: f

mutual
/-- Python os.walk restricted to what get_all_files consumes: the (root
path, file name) pairs, top-down, a directory's own files before its
subdirectories' files. -/
def walkTree : Str → FsTree → List (Str × Str)
  | p, .node fs subs => fs.map (fun f => (p, f)) ++ walkSubs p subs
def walkSubs : Str → List (Str × FsTree) → List (Str × Str)
  | _, [] => []
  | p, (n, t) :: rest => walkTree (pjoin p n) t ++ walkSubs p rest
end

/-- The suffix of a name starting at its last dot, or empty when the name
has no dot. -/
def extAfter : Str → Str
  | [] => []
  | c :: rest =>
    let e := extAfter rest
    if e = [] then (if c = '.' then c :: rest else []) else e

/-- Python os.path.splitext(name)[1]: the extension of a file name; leading
dots of the name never start an extension. -/
def extOf (name : Str) : Str := extAfter (name.dropWhile (fun c => c = '.'))

/-- path_utils.py get_all_files: every file under the walk whose extension
equals the requested one (or every file when no extension is requested),
as paths joined with the directory they were found in. -/
def get_all_files (dir : Str) (t : FsTree) (extension : Option Str) : List Str :=
  (walkTree dir t).filterMap (fun rf =>
    if extension = none ∨ extension = some (extOf rf.2) then some (pjoin rf.1 rf.2)
    else none)

theorem readline_eq_nil_iff (s : Str) : readline s = [] ↔ s = [] := by
  cases s with
  | nil => simp [readline]
  | cons c rest =>
    simp only [readline]
    split <;> simp

theorem readline_of_not_newline {s : Str} (h : '\n' ∉ s) : readline s = s := by
  induction s with
  | nil => rfl
  | cons c rest ih =>
    simp only [List.mem_cons, not_or] at h
    simp [readline, Ne.symm h.1, ih h.2]

theorem readline_decomp (s : Str) :
    readline s = pyFirstLine s ++ (if '\n' ∈ s then ['\n'] else []) := by
  induction s with
  | nil => rfl
  | cons c rest ih =>
    by_cases hc : c = '\n'
    · subst hc; simp [readline, pyFirstLine]
    · simp [readline, pyFirstLine, hc, ih, Ne.symm hc]

theorem pyFirstLine_not_newline (s : Str) : '\n' ∉ pyFirstLine s := by
  induction s with
  | nil => simp [pyFirstLine]
  | cons c rest ih =>
    by_cases hc : c = '\n'
    · subst hc; simp [pyFirstLine]
    · simp [pyFirstLine, hc, ih, Ne.symm hc]

theorem pyFirstLine_append_newline {a : Str} (b : Str) (h : '\n' ∉ a) :
    pyFirstLine (a ++ '\n' :: b) = a := by
  induction a with
  | nil => simp [pyFirstLine]
  | cons c rest ih =>
    simp only [List.mem_cons, not_or] at h
    simp [pyFirstLine, Ne.symm h.1, ih h.2]

theorem pyFirstLine_of_not_newline {s : Str} (h : '\n' ∉ s) : pyFirstLine s = s := by
  induction s with
  | nil => rfl
  | cons c rest ih =>
    simp only [List.mem_cons, not_or] at h
    simp [pyFirstLine, Ne.symm h.1, ih h.2]

theorem pyFirstLine_cons_ne {c : Char} (s : Str) (h : c ≠ '\n') :
    pyFirstLine (c :: s) = c :: pyFirstLine s := by
  simp [pyFirstLine, h]

theorem pyFirstLine_append {a : Str} (b : Str) (h : '\n' ∉ a) :
    pyFirstLine (a ++ b) = a ++ pyFirstLine b := by
  induction a with
  | nil => rfl
  | cons c rest ih =>
    simp only [List.mem_cons, not_or] at h
    simp [pyFirstLine, Ne.symm h.1, ih h.2]

theorem pyLines_append_newline {a : Str} (b : Str) (h : '\n' ∉ a) :
    pyLines (a ++ '\n' :: b) = a :: pyLines b := by
  induction a with
  | nil => simp [pyLines]
  | cons c rest ih =>
    simp only [List.mem_cons, not_or] at h
    simp only [List.cons_append, pyLines, if_neg (Ne.symm h.1), List.append_eq]
    rw [ih h.2]
    rfl

theorem pyLines_of_no_newline {s : Str} (hne : s ≠ []) (h : '\n' ∉ s) :
    pyLines s = [s] := by
  induction s with
  | nil => exact absurd rfl hne
  | cons c rest ih =>
    simp only [List.mem_cons, not_or] at h
    cases rest with
    | nil => simp [pyLines, Ne.symm h.1, consLine]
    | cons d tl =>
      rw [pyLines, if_neg (Ne.symm h.1), ih (by simp) h.2, consLine]

theorem pyLines_pyJoin {l : List Str}
    (h : ∀ x ∈ l, '\n' ∉ x ∧ x ≠ []) :
    pyLines (pyJoin ['\n'] l) = l := by
  induction l with
  | nil => rfl
  | cons x tl ih =>
    cases tl with
    | nil =>
      have hx := h x (by simp)
      simp only [pyJoin]
      exact pyLines_of_no_newline hx.2 hx.1
    | cons y tl2 =>
      have hx := h x (by simp)
      have step : pyJoin ['\n'] (x :: y :: tl2) = x ++ '\n' :: pyJoin ['\n'] (y :: tl2) := by
        simp [pyJoin]
      rw [step, pyLines_append_newline _ hx.1, ih (fun z hz => h z (by simp [hz]))]

theorem mem_raFuel {pat : Str} {c : Char} :
    ∀ (fuel : Nat) (s : Str), c ∈ raFuel pat [] fuel s → c ∈ s := by
  intro fuel
  induction fuel with
  | zero => intro s; cases s <;> simp [raFuel]
  | succ n ih =>
    intro s hmem
    cases s with
    | nil => simp [raFuel] at hmem
    | cons d rest =>
      simp only [raFuel] at hmem
      split at hmem
      · simp only [List.nil_append] at hmem
        exact List.mem_cons_of_mem d (List.drop_subset _ rest (ih _ hmem))
      · rcases List.mem_cons.mp hmem with h | h
        · simp [h]
        · exact List.mem_cons_of_mem d (ih _ h)

theorem mem_replaceAll {pat s : Str} {c : Char}
    (h : c ∈ replaceAll pat [] s) : c ∈ s :=
  mem_raFuel s.length s h

theorem firstLine_construct (dep cp tgt sp pp : Str) (files : List Str)
    (hcp : '\n' ∉ cp) :
    pyFirstLine (construct_javac_args dep cp tgt sp pp files) =
      str "-classpath " ++ cp ++ (if dep = [] then [] else ':' :: pyFirstLine dep) := by
  have hlit : '\n' ∉ str "-classpath " := by decide
  have hcolon : (':' : Char) ≠ '\n' := by decide
  unfold construct_javac_args
  simp only [List.append_assoc]
  rw [pyFirstLine_append _ hlit, pyFirstLine_append _ hcp]
  by_cases hd : dep = []
  · subst hd
    simp [dependency_path_of, readline, pyFirstLine]
  · by_cases hn : '\n' ∈ dep
    · have hrl : readline dep = pyFirstLine dep ++ ['\n'] := by
        rw [readline_decomp, if_pos hn]
      have hdp : dependency_path_of dep = ':' :: (pyFirstLine dep ++ ['\n']) := by
        rw [dependency_path_of, hrl]
        simp
      rw [hdp, if_neg hd]
      simp only [List.cons_append, List.append_assoc, List.singleton_append]
      rw [pyFirstLine_cons_ne _ hcolon,
        pyFirstLine_append_newline _ (pyFirstLine_not_newline dep)]
    · have hrl : readline dep = dep := readline_of_not_newline hn
      have hdp : dependency_path_of dep = ':' :: dep := by
        rw [dependency_path_of, hrl, if_neg hd]
      rw [hdp, if_neg hd]
      simp only [List.cons_append, List.append_assoc, List.singleton_append]
      rw [pyFirstLine_cons_ne _ hcolon, pyFirstLine_append_newline _ hn,
        pyFirstLine_of_not_newline hn]

/-- Claim C2 (amended): the first output line of the arg-file builder is
the literal classpath argument after the header, with a colon and the
dependency file's first line appended exactly when the dependency file's
content is non-empty (not when its first line is non-empty: a non-empty
file whose first line is empty yields a bare trailing colon).  The two
concrete scenarios: an empty dependency file yields no suffix, and the
file '/libs/a.jar:/libs/junit-4.13.jar' yields that classpath suffix. -/
theorem claim_C2 :
    (∀ (dep cp tgt sp pp : Str) (files : List Str), '\n' ∉ cp →
      pyFirstLine (construct_javac_args dep cp tgt sp pp files) =
        str "-classpath " ++ cp ++ (if dep = [] then [] else ':' :: pyFirstLine dep))
    ∧ pyFirstLine (construct_javac_args [] (str "cp") (str "tgt") (str "sp")
        (str "/p") []) = str "-classpath cp"
    ∧ pyFirstLine (construct_javac_args (str "/libs/a.jar:/libs/junit-4.13.jar")
        (str "cp") (str "tgt") (str "sp") (str "/p") []) =
        str "-classpath cp:/libs/a.jar:/libs/junit-4.13.jar" :=
  ⟨fun dep cp tgt sp pp files hcp => firstLine_construct dep cp tgt sp pp files hcp,
   by decide, by decide⟩

/-- Claim C2 counterexample: for a dependency file containing a single
empty line (content just a newline), the first line of the dependency file
is empty, yet the builder's classpath line carries a trailing colon, so it
is not the bare classpath argument the claim requires. -/
theorem claim_C2_counterexample :
    pyFirstLine (construct_javac_args (str "\n") (str "c") (str "t") (str "s")
        (str "/p") []) = str "-classpath c:"
    ∧ pyFirstLine (str "\n") = []
    ∧ str "-classpath c:" ≠ str "-classpath c" := by decide

/-- Witness for claim C2: the universally quantified part applied at a
concrete no-newline classpath argument. -/
theorem claim_C2_witness :
    ('\n' ∉ str "c")
    ∧ pyFirstLine (construct_javac_args (str "d") (str "c") (str "t") (str "s")
        (str "/p") []) =
      str "-classpath " ++ str "c" ++
        (if str "d" = [] then [] else ':' :: pyFirstLine (str "d")) :=
  ⟨by decide,
   claim_C2.1 (str "d") (str "c") (str "t") (str "s") (str "/p") [] (by decide)⟩

theorem dependency_path_of_no_newline {dep : Str} (hdep : '\n' ∉ dep) :
    dependency_path_of dep = if dep = [] then [] else ':' :: dep := by
  rw [dependency_path_of, readline_of_not_newline hdep]

theorem not_newline_dependency_path {dep : Str} (hdep : '\n' ∉ dep) :
    '\n' ∉ dependency_path_of dep := by
  rw [dependency_path_of_no_newline hdep]
  by_cases h : dep = [] <;> simp +decide [h, hdep]

theorem lines_construct (dep cp tgt sp pp : Str) (files : List Str)
    (hdep : '\n' ∉ dep) (hcp : '\n' ∉ cp) (htgt : '\n' ∉ tgt) (hsp : '\n' ∉ sp)
    (hf : ∀ f ∈ files, '\n' ∉ f ∧ replaceAll (pp ++ ['/']) [] f ≠ []) :
    pyLines (construct_javac_args dep cp tgt sp pp files) =
      (str "-classpath " ++ cp ++ (if dep = [] then [] else ':' :: dep)) ::
        (str "-sourcepath " ++ sp) :: (str "-d " ++ tgt) ::
        files.map (fun p => replaceAll (pp ++ ['/']) [] p) := by
  have hdp : dependency_path_of dep = if dep = [] then [] else ':' :: dep :=
    dependency_path_of_no_newline hdep
  have hdpn : '\n' ∉ dependency_path_of dep := not_newline_dependency_path hdep
  have e1 : construct_javac_args dep cp tgt sp pp files =
      (str "-classpath " ++ cp ++ dependency_path_of dep) ++ '\n' ::
        ((str "-sourcepath " ++ sp) ++ '\n' ::
          ((str "-d " ++ tgt) ++ '\n' ::
            pyJoin ['\n'] (files.map (fun p => replaceAll (pp ++ ['/']) [] p)))) := by
    simp [construct_javac_args, List.append_assoc]
  have h1 : '\n' ∉ str "-classpath " ++ cp ++ dependency_path_of dep := by
    simp only [List.append_assoc, List.mem_append, not_or]
    exact ⟨by decide, hcp, hdpn⟩
  have h2 : '\n' ∉ str "-sourcepath " ++ sp := by
    simp only [List.mem_append, not_or]
    exact ⟨by decide, hsp⟩
  have h3 : '\n' ∉ str "-d " ++ tgt := by
    simp only [List.mem_append, not_or]
    exact ⟨by decide, htgt⟩
  have hsrc : ∀ x ∈ files.map (fun p => replaceAll (pp ++ ['/']) [] p),
      '\n' ∉ x ∧ x ≠ [] := by
    intro x hx
    rcases List.mem_map.mp hx with ⟨f, hfmem, rfl⟩
    exact ⟨fun hmem => (hf f hfmem).1 (mem_replaceAll hmem), (hf f hfmem).2⟩
  rw [e1, pyLines_append_newline _ h1, pyLines_append_newline _ h2,
    pyLines_append_newline _ h3, pyLines_pyJoin hsrc, hdp]

/-- Claim C1 (amended): for every valid invocation in which the dependency
file content and the classpath, target and sourcepath arguments contain no
newline and every discovered source file keeps a non-empty line after the
replacement, the output consists of the three header lines in fixed order
followed by one line per file discovered under the source-file root, where
each source line is the file's path with every occurrence of the
project-root-plus-separator substring removed (Python str.replace removes
all occurrences, not only a leading one). -/
theorem claim_C1 :
    ∀ (dep cp tgt sp pp sf : Str) (t : FsTree),
      '\n' ∉ dep → '\n' ∉ cp → '\n' ∉ tgt → '\n' ∉ sp →
      (∀ f ∈ get_all_files sf t none,
        '\n' ∉ f ∧ replaceAll (pp ++ ['/']) [] f ≠ []) →
      pyLines (construct_javac_args dep cp tgt sp pp (get_all_files sf t none)) =
        (str "-classpath " ++ cp ++ (if dep = [] then [] else ':' :: dep)) ::
          (str "-sourcepath " ++ sp) :: (str "-d " ++ tgt) ::
          (get_all_files sf t none).map (fun p => replaceAll (pp ++ ['/']) [] p) :=
  fun dep cp tgt sp pp sf t hdep hcp htgt hsp hf =>
    lines_construct dep cp tgt sp pp (get_all_files sf t none) hdep hcp htgt hsp hf

/-- Source tree used for the claim C1 counterexample: the source-file root
contains a subdirectory named like the project-root directory. -/
def c1Tree : FsTree := FsTree.node [] [(str "p", FsTree.node [str "f"] [])]

/-- Claim C1 counterexample: with dependency file content ending in a
newline, the output has an extra blank line after the classpath header (so
not exactly three header lines followed by the source lines), and the one
discovered file /p/s/p/f is written as the line sf, not as s/p/f: every
occurrence of the project prefix /p/ is removed, not only the leading one. -/
theorem claim_C1_counterexample :
    pyLines (construct_javac_args (str "d\n") (str "c") (str "t") (str "s")
        (str "/p") (get_all_files (str "/p/s") c1Tree none)) =
      [str "-classpath c:d", [], str "-sourcepath s", str "-d t", str "sf"]
    ∧ (get_all_files (str "/p/s") c1Tree none).length = 1
    ∧ (pyLines (construct_javac_args (str "d\n") (str "c") (str "t") (str "s")
        (str "/p") (get_all_files (str "/p/s") c1Tree none))).length ≠
      3 + (get_all_files (str "/p/s") c1Tree none).length := by decide

/-- Source tree used for the claim C1 witness. -/
def c1WitnessTree : FsTree := FsTree.node [str "A.java"] []

/-- Witness for claim C1 at a concrete well-behaved invocation. -/
theorem claim_C1_witness :
    (('\n' ∉ str "j") ∧ ('\n' ∉ str "c") ∧ ('\n' ∉ str "t") ∧ ('\n' ∉ str "s")
      ∧ (∀ f ∈ get_all_files (str "/p/s") c1WitnessTree none,
          '\n' ∉ f ∧ replaceAll (str "/p" ++ ['/']) [] f ≠ []))
    ∧ pyLines (construct_javac_args (str "j") (str "c") (str "t") (str "s")
        (str "/p") (get_all_files (str "/p/s") c1WitnessTree none)) =
      (str "-classpath " ++ str "c" ++
          (if str "j" = [] then [] else ':' :: str "j")) ::
        (str "-sourcepath " ++ str "s") :: (str "-d " ++ str "t") ::
        (get_all_files (str "/p/s") c1WitnessTree none).map
          (fun p => replaceAll (str "/p" ++ ['/']) [] p) :=
  ⟨⟨by decide, by decide, by decide, by decide, by decide⟩,
   claim_C1 (str "j") (str "c") (str "t") (str "s") (str "/p") (str "/p/s")
     c1WitnessTree (by decide) (by decide) (by decide) (by decide) (by decide)⟩

/-- extract_test_info.py: content of the args_junit.txt argument file. -/
def args_junit_content (dep testclasses classes : Str) : Str :=
  str "--classpath " ++ testclasses ++ ':' :: classes ++
    dependency_path_of dep ++ ['\n']

/-- Claim C6 (amended): when the dependency file content and the two
directory arguments contain no newline, args_junit.txt holds the single
line built from the testclasses directory, the classes directory and the
dependency suffix; the suffix is appended exactly when the dependency file
content is non-empty (a non-empty file with an empty first line yields a
trailing colon and an extra blank line instead). -/
theorem claim_C6 :
    ∀ (dep tc cl : Str), '\n' ∉ dep → '\n' ∉ tc → '\n' ∉ cl →
      pyLines (args_junit_content dep tc cl) =
        [str "--classpath " ++ tc ++ ':' :: cl ++
          (if dep = [] then [] else ':' :: dep)] := by
  intro dep tc cl hdep htc hcl
  have hdpn : '\n' ∉ dependency_path_of dep := not_newline_dependency_path hdep
  have e1 : args_junit_content dep tc cl =
      (str "--classpath " ++ tc ++ ':' :: cl ++ dependency_path_of dep) ++
        '\n' :: [] := by
    simp [args_junit_content, List.append_assoc]
  have h1 : '\n' ∉ str "--classpath " ++ tc ++ ':' :: cl ++ dependency_path_of dep := by
    simp +decide [List.mem_append, List.mem_cons, htc, hcl, hdpn]
  rw [e1, pyLines_append_newline _ h1, dependency_path_of_no_newline hdep]
  rfl

/-- Claim C6 counterexample: for a dependency file containing a single
empty line, args_junit.txt has two lines, the first carrying a trailing
colon, not the single line the claim requires for an empty first line. -/
theorem claim_C6_counterexample :
    pyLines (args_junit_content (str "\n") (str "t") (str "c")) =
      [str "--classpath t:c:", []]
    ∧ pyFirstLine (str "\n") = []
    ∧ [str "--classpath t:c:", []] ≠ [str "--classpath t:c"] := by decide

/-- Witness for claim C6 at concrete newline-free inputs. -/
theorem claim_C6_witness :
    (('\n' ∉ str "d") ∧ ('\n' ∉ str "t") ∧ ('\n' ∉ str "c"))
    ∧ pyLines (args_junit_content (str "d") (str "t") (str "c")) =
      [str "--classpath " ++ str "t" ++ ':' :: str "c" ++
        (if str "d" = [] then [] else ':' :: str "d")] :=
  ⟨⟨by decide, by decide, by decide⟩,
   claim_C6 (str "d") (str "t") (str "c") (by decide) (by decide) (by decide)⟩

/-- The character class of the version regex: a digit, an asterisk or a
dot. -/
def isVClass (c : Char) : Bool := c.isDigit || c = '*' || c = '.'

/-- re.search of the pattern junit- followed by one or more class
characters: the captured character right after the leftmost occurrence of
junit- that is followed by at least one class character. -/
def findJunitDigit : Str → Option Char
  | [] => none
  | c :: rest =>
    if str "junit-" <+: (c :: rest) then
      match List.drop 6 (c :: rest) with
      | d :: _ => if isVClass d then some d else findJunitDigit rest
      | [] => findJunitDigit rest
    else findJunitDigit rest

/-- The characters the version loop writes for one colon-separated
dependency segment: the captured JUnit 3/4 digit-class character when the
first pattern matches, then the character 5 when the segment contains
junit-jupiter. -/
def segVersion (seg : Str) : Str :=
  (match findJunitDigit seg with
   | some c => [c]
   | none => []) ++
    (if str "junit-jupiter" <:+: seg then ['5'] else [])

/-- One iteration of the version loop of extract_test_info.py: at most one
write for the JUnit 3/4 pattern, then at most one write for junit-jupiter. -/
def versionStep (acc seg : Str) : Str :=
  let acc2 :=
    match findJunitDigit seg with
    | some c => acc ++ [c]
    | none => acc
  if str "junit-jupiter" <:+: seg then acc2 ++ ['5'] else acc2

/-- extract_test_info.py: content of version.txt, accumulated write by
write over the colon-split of the (colon-prefixed) dependency path. -/
def extract_version (dep : Str) : Str :=
  ((dependency_path_of dep).splitOn ':').foldl versionStep []

theorem versionStep_eq (acc seg : Str) :
    versionStep acc seg = acc ++ segVersion seg := by
  unfold versionStep segVersion
  cases h : findJunitDigit seg <;>
    by_cases hj : str "junit-jupiter" <:+: seg <;> simp [h, hj]

theorem versionStep_foldl : ∀ (l : List Str) (acc : Str),
    l.foldl versionStep acc = acc ++ (l.map segVersion).flatten := by
  intro l
  induction l with
  | nil => intro acc; simp
  | cons x tl ih =>
    intro acc
    simp only [List.foldl_cons, List.map_cons, List.flatten_cons]
    rw [versionStep_eq, ih, List.append_assoc]

/-- Claim C3: the version file receives 5 for a junit-jupiter dependency,
4 for junit-4.13, and in general the concatenation, over every
colon-separated segment of the dependency path, of one character per
pattern match (the captured class character for junit-digits, the literal
5 for junit-jupiter), with no deduplication and no early exit — so two
matching dependencies produce the concatenated string 45. -/
theorem claim_C3 :
    extract_version (str "/repo/libs/junit-jupiter-5.9.0.jar") = str "5"
    ∧ extract_version (str "/repo/libs/junit-4.13.jar") = str "4"
    ∧ extract_version (str "/l/junit-4.13.jar:/l/junit-jupiter-5.9.0.jar") = str "45"
    ∧ ∀ dep : Str, extract_version dep =
        (((dependency_path_of dep).splitOn ':').map segVersion).flatten :=
  ⟨by decide, by decide, by decide,
   fun dep => versionStep_foldl ((dependency_path_of dep).splitOn ':') []⟩

/-- Python os.path.dirname for POSIX paths: everything up to the last
separator, trailing separators stripped unless the head consists solely of
separators; empty when the path has no separator. -/
def dirname (p : Str) : Str :=
  let r := p.reverse
  let keep := r.dropWhile (fun c => c ≠ '/')
  if keep = [] then []
  else if keep.all (fun c => c == '/') then keep.reverse
  else (keep.dropWhile (fun c => c == '/')).reverse

/-- path_utils.py dir_path: return the string when it names an existing
directory, raise NotADirectoryError (modelled as an error value carrying
the string) otherwise.  The directory predicate of the ambient filesystem
is passed explicitly. -/
def dir_path (isdir : Str → Bool) (s : Str) : Except Str Str :=
  if isdir s then Except.ok s else Except.error s

/-- path_utils.py file_path: return the string when its parent directory
exists, raise NotADirectoryError otherwise; the file itself is never
consulted. -/
def file_path (isdir : Str → Bool) (s : Str) : Except Str Str :=
  if isdir (dirname s) then Except.ok s else Except.error s

/-- Claim C9: dir_path errors exactly when the path is not an existing
directory and otherwise returns the path unchanged; file_path errors
exactly when the parent directory (os.path.dirname) does not exist,
otherwise returns the path unchanged, and its outcome depends only on the
directory predicate at the parent — in particular the existence of the
file itself is never consulted. -/
theorem claim_C9 :
    (∀ (isdir : Str → Bool) (s : Str),
      (dir_path isdir s = Except.error s ↔ isdir s = false)
      ∧ (dir_path isdir s = Except.ok s ↔ isdir s = true)
      ∧ (file_path isdir s = Except.error s ↔ isdir (dirname s) = false)
      ∧ (file_path isdir s = Except.ok s ↔ isdir (dirname s) = true))
    ∧ ∀ (isdir1 isdir2 : Str → Bool) (s : Str),
        isdir1 (dirname s) = isdir2 (dirname s) →
          file_path isdir1 s = file_path isdir2 s := by
  constructor
  · intro isdir s
    cases h : isdir s <;> cases h2 : isdir (dirname s) <;>
      simp [dir_path, file_path, h, h2]
  · intro isdir1 isdir2 s h
    simp [file_path, h]

/-- Witness for claim C9: the parent-only dependence applied to two
concrete predicates agreeing at the parent of a concrete path. -/
theorem claim_C9_witness :
    ((fun _ : Str => true) (dirname (str "a/b")) =
      (fun x : Str => x == str "a") (dirname (str "a/b")))
    ∧ file_path (fun _ : Str => true) (str "a/b") =
        file_path (fun x : Str => x == str "a") (str "a/b") :=
  ⟨by decide,
   claim_C9.2 (fun _ : Str => true) (fun x : Str => x == str "a") (str "a/b")
     (by decide)⟩

/-- Claim C7 (amended): get_all_files returns exactly the walk-reachable
files whose os.path.splitext extension equals the requested extension
(joined with the directory they live in), and all walk-reachable files
when no extension is requested.  The splitext extension is the suffix from
the last dot of the name, where leading dots never start an extension —
this is not the same as the name merely ending with the extension. -/
theorem claim_C7 :
    (∀ (dir : Str) (t : FsTree) (e q : Str),
      q ∈ get_all_files dir t (some e) ↔
        ∃ r f, (r, f) ∈ walkTree dir t ∧ extOf f = e ∧ q = pjoin r f)
    ∧ ∀ (dir : Str) (t : FsTree) (q : Str),
      q ∈ get_all_files dir t none ↔
        ∃ r f, (r, f) ∈ walkTree dir t ∧ q = pjoin r f := by
  constructor
  · intro dir t e q
    simp only [get_all_files, List.mem_filterMap]
    constructor
    · rintro ⟨⟨r, f⟩, hmem, hif⟩
      split at hif
      · next hcond =>
        rcases hcond with h | h
        · exact absurd h (by simp)
        · exact ⟨r, f, hmem, (Option.some.inj h).symm, (Option.some.inj hif).symm⟩
      · exact absurd hif (by simp)
    · rintro ⟨r, f, hmem, hext, rfl⟩
      exact ⟨(r, f), hmem, by rw [if_pos (Or.inr (by rw [hext]))]⟩
  · intro dir t q
    simp only [get_all_files, List.mem_filterMap]
    constructor
    · rintro ⟨⟨r, f⟩, hmem, hif⟩
      simp only [true_or, if_true, Option.some.injEq] at hif
      exact ⟨r, f, hmem, hif.symm⟩
    · rintro ⟨r, f, hmem, rfl⟩
      exact ⟨(r, f), hmem, by simp⟩

/-- Directory used for the claim C7 counterexample: it contains a single
file literally named .xml. -/
def dotfileTree : FsTree := FsTree.node [str ".xml"] []

/-- Claim C7 counterexample: the file named .xml ends with the extension
string .xml and is reachable under the root, yet get_all_files with
extension .xml returns nothing, because os.path.splitext treats a leading
dot as part of the name, giving this file the empty extension. -/
theorem claim_C7_counterexample :
    get_all_files (str "/d") dotfileTree (some (str ".xml")) = []
    ∧ (str "/d", str ".xml") ∈ walkTree (str "/d") dotfileTree
    ∧ str ".xml" <:+ str ".xml"
    ∧ extOf (str ".xml") = [] := by decide

/-- Python set.add on a set modelled as a duplicate-free list. -/
def insertS (x : Str) (s : List Str) : List Str := if x ∈ s then s else s ++ [x]

/-- count_cp.py: walk the marker files (name, content) in order, collect
the first line of every source_cp file and of every test_cp file into two
sets, and report both cardinalities. -/
def count_cp (files : List (Str × Str)) : Nat × Nat :=
  let sets := files.foldl
    (fun (acc : List Str × List Str) fc =>
      let acc1 :=
        if fc.1 = str "source_cp" then (insertS (readline fc.2) acc.1, acc.2)
        else acc
      if fc.1 = str "test_cp" then (acc1.1, insertS (readline fc.2) acc1.2)
      else acc1)
    ([], [])
  (sets.1.length, sets.2.length)

/-- Python "\n".join(f.readlines()): the aggregated content a variant B
counter stores for one marker file. -/
def joinReadlines (s : Str) : Str := pyJoin ['\n'] (readlines s)

/-- count_arg_files.py: walk the marker files in order, collect the
aggregated content of every args_source_v1.txt and args_source_v2.txt file
into the source set and of every args_test_v2.txt file into the test set,
and report both cardinalities. -/
def count_arg_files (files : List (Str × Str)) : Nat × Nat :=
  let sets := files.foldl
    (fun (acc : List Str × List Str) fc =>
      let a1 :=
        if fc.1 = str "args_source_v1.txt" then
          (insertS (joinReadlines fc.2) acc.1, acc.2)
        else acc
      let a2 :=
        if fc.1 = str "args_source_v2.txt" then
          (insertS (joinReadlines fc.2) a1.1, a1.2)
        else a1
      if fc.1 = str "args_test_v2.txt" then
        (a2.1, insertS (joinReadlines fc.2) a2.2)
      else a2)
    ([], [])
  (sets.1.length, sets.2.length)

theorem consLine_ne_nil (c : Char) (l : List Str) : consLine c l ≠ [] := by
  cases l <;> simp [consLine]

theorem readlines_ne_nil {s : Str} (h : s ≠ []) : readlines s ≠ [] := by
  cases s with
  | nil => exact absurd rfl h
  | cons c rest =>
    simp only [readlines]
    split
    · simp
    · exact consLine_ne_nil _ _

theorem joinReadlines_cons_ne {c : Char} (rest : Str) (h : c ≠ '\n') :
    joinReadlines (c :: rest) = c :: joinReadlines rest := by
  unfold joinReadlines
  simp only [readlines, if_neg h]
  cases hr : readlines rest with
  | nil => simp [consLine, pyJoin]
  | cons l ls =>
    cases ls with
    | nil => simp [consLine, pyJoin]
    | cons m ms => simp [consLine, pyJoin]

theorem joinReadlines_cons_newline {rest : Str} (h : rest ≠ []) :
    joinReadlines ('\n' :: rest) = '\n' :: '\n' :: joinReadlines rest := by
  unfold joinReadlines
  rw [readlines, if_pos rfl]
  cases hr : readlines rest with
  | nil => exact absurd hr (readlines_ne_nil h)
  | cons l ls => simp [pyJoin]

theorem joinReadlines_ne_nil {s : Str} (h : s ≠ []) : joinReadlines s ≠ [] := by
  cases s with
  | nil => exact absurd rfl h
  | cons c rest =>
    by_cases hc : c = '\n'
    · subst hc
      cases rest with
      | nil => decide
      | cons y ys =>
        rw [joinReadlines_cons_newline (by simp)]
        simp
    · rw [joinReadlines_cons_ne _ hc]
      simp

theorem joinReadlines_head (s : Str) : (joinReadlines s).head? = s.head? := by
  cases s with
  | nil => rfl
  | cons c rest =>
    by_cases hc : c = '\n'
    · subst hc
      cases rest with
      | nil => decide
      | cons y ys =>
        rw [joinReadlines_cons_newline (by simp)]
        rfl
    · rw [joinReadlines_cons_ne _ hc]
      rfl

theorem joinReadlines_inj : ∀ (s1 s2 : Str),
    joinReadlines s1 = joinReadlines s2 → s1 = s2 := by
  intro s1
  induction s1 with
  | nil =>
    intro s2 h
    cases s2 with
    | nil => rfl
    | cons d r2 => exact absurd h.symm (joinReadlines_ne_nil (by simp))
  | cons c rest ih =>
    intro s2 h
    cases s2 with
    | nil => exact absurd h (joinReadlines_ne_nil (by simp))
    | cons d r2 =>
      have hcd : d = c := by
        have e1 := joinReadlines_head (c :: rest)
        rw [h, joinReadlines_head] at e1
        exact Option.some.inj e1
      subst hcd
      by_cases hc : d = '\n'
      · subst hc
        cases rest with
        | nil =>
          cases r2 with
          | nil => rfl
          | cons x xs =>
            rw [show joinReadlines ['\n'] = ['\n'] by decide,
              joinReadlines_cons_newline (by simp)] at h
            simp at h
        | cons y ys =>
          cases r2 with
          | nil =>
            rw [show joinReadlines ['\n'] = ['\n'] by decide,
              joinReadlines_cons_newline (by simp)] at h
            simp at h
          | cons x xs =>
            rw [joinReadlines_cons_newline (by simp),
              joinReadlines_cons_newline (by simp)] at h
            simp only [List.cons.injEq, true_and] at h
            rw [ih _ h]
      · rw [joinReadlines_cons_ne _ hc, joinReadlines_cons_ne _ hc] at h
        simp only [List.cons.injEq, true_and] at h
        rw [ih _ h]

theorem count_cp_source_pair (c1 c2 : Str) :
    count_cp [(str "source_cp", c1), (str "source_cp", c2)] =
      (if readline c1 = readline c2 then 1 else 2, 0) := by
  by_cases h : readline c1 = readline c2
  · simp +decide [count_cp, insertS, h]
  · simp +decide [count_cp, insertS, h, Ne.symm h]

theorem count_cp_test_pair (c1 c2 : Str) :
    count_cp [(str "test_cp", c1), (str "test_cp", c2)] =
      (0, if readline c1 = readline c2 then 1 else 2) := by
  by_cases h : readline c1 = readline c2
  · simp +decide [count_cp, insertS, h]
  · simp +decide [count_cp, insertS, h, Ne.symm h]

theorem count_arg_files_source_pair (c1 c2 : Str) :
    count_arg_files
        [(str "args_source_v1.txt", c1), (str "args_source_v2.txt", c2)] =
      (if c1 = c2 then 1 else 2, 0) := by
  by_cases h : c1 = c2
  · simp +decide [count_arg_files, insertS, h]
  · have hne : joinReadlines c2 ≠ joinReadlines c1 :=
      fun he => Ne.symm h (joinReadlines_inj c2 c1 he)
    simp +decide [count_arg_files, insertS, h, hne]

theorem count_arg_files_test_pair (c1 c2 : Str) :
    count_arg_files [(str "args_test_v2.txt", c1), (str "args_test_v2.txt", c2)] =
      (0, if c1 = c2 then 1 else 2) := by
  by_cases h : c1 = c2
  · simp +decide [count_arg_files, insertS, h]
  · have hne : joinReadlines c2 ≠ joinReadlines c1 :=
      fun he => Ne.symm h (joinReadlines_inj c2 c1 he)
    simp +decide [count_arg_files, insertS, h, hne]

/-- Claim C8 (amended): for variant B (count_arg_files) the distinct count
over a run with two marker files of the same category is 1 for identical
contents and 2 for differing contents, the aggregated full content being
an injective image of the file content; for variant A (count_cp) the
dichotomy is on the files' first lines (readline), not on their full
contents — two files with differing content but the same first line count
as 1. -/
theorem claim_C8 :
    (∀ c1 c2 : Str,
      count_cp [(str "source_cp", c1), (str "source_cp", c2)] =
        (if readline c1 = readline c2 then 1 else 2, 0))
    ∧ (∀ c1 c2 : Str,
      count_cp [(str "test_cp", c1), (str "test_cp", c2)] =
        (0, if readline c1 = readline c2 then 1 else 2))
    ∧ (∀ c1 c2 : Str,
      count_arg_files
          [(str "args_source_v1.txt", c1), (str "args_source_v2.txt", c2)] =
        (if c1 = c2 then 1 else 2, 0))
    ∧ (∀ c1 c2 : Str,
      count_arg_files
          [(str "args_test_v2.txt", c1), (str "args_test_v2.txt", c2)] =
        (0, if c1 = c2 then 1 else 2)) :=
  ⟨count_cp_source_pair, count_cp_test_pair,
   count_arg_files_source_pair, count_arg_files_test_pair⟩

/-- Claim C8 counterexample: two source_cp marker files with differing
contents but a common first line are counted once by variant A, not twice
as the claim requires for differing contents. -/
theorem claim_C8_counterexample :
    count_cp [(str "source_cp", str "a\nx"), (str "source_cp", str "a\ny")] =
      (1, 0)
    ∧ str "a\nx" ≠ str "a\ny" := by decide

/-- A parsed XML element: tag, attributes in document order, text and
child elements (tail text is not modelled; nothing here depends on it). -/
inductive XElem where
  | mk : Str → List (Str × Str) → Str → List XElem → XElem

def XElem.tag : XElem → Str
  | .mk t _ _ _ => t

def XElem.attrs : XElem → List (Str × Str)
  | .mk _ a _ _ => a

def XElem.text : XElem → Str
  | .mk _ _ tx _ => tx

def XElem.children : XElem → List XElem
  | .mk _ _ _ cs => cs

/-- Attribute lookup (Element.get), the absent case mapped to the empty
string; every element the claims exercise carries its attributes. -/
def lookupAttr : List (Str × Str) → Str → Str
  | [], _ => []
  | (k, v) :: rest, key => if k = key then v else lookupAttr rest key

def attrOf (e : XElem) (key : Str) : Str := lookupAttr e.attrs key

mutual
/-- ET.tostring with unicode encoding: a self-closing form for an element
with neither text nor children, the usual open/close form otherwise. -/
def serialize : XElem → Str
  | .mk t a [] [] =>
    '<' :: t ++ (a.map (fun p => ' ' :: p.1 ++ '=' :: '"' :: p.2 ++ ['"'])).flatten ++
      str " />"
  | .mk t a tx cs =>
    '<' :: t ++ (a.map (fun p => ' ' :: p.1 ++ '=' :: '"' :: p.2 ++ ['"'])).flatten ++
      ['>'] ++ tx ++ serializeList cs ++ str "</" ++ t ++ ['>']
def serializeList : List XElem → Str
  | [] => []
  | c :: rest => serialize c ++ serializeList rest
end

/-- Element.findall with a plain tag: the direct children carrying that
tag, in document order. -/
def findall (t : Str) : List XElem → List XElem
  | [] => []
  | c :: rest => if c.tag = t then c :: findall t rest else findall t rest

/-- The four accumulating outputs of the report loop of
extract_test_info.py: the three text files and the in-memory
testsuite_names list. -/
structure ExtractOut where
  testcases : Str
  testsuites : Str
  removed : Str
  names : List Str

/-- The identifier classname#name of a testcase element. -/
def caseId (tc : XElem) : Str :=
  attrOf tc (str "classname") ++ '#' :: attrOf tc (str "name")

/-- One iteration of the multi-suite branch: the child's name goes to the
suite file, the root's name to the in-memory list. -/
def suiteStep (root : XElem) (s : ExtractOut) (c : XElem) : ExtractOut :=
  { s with
    testsuites := s.testsuites ++ attrOf c (str "name") ++ ['\n'],
    names := s.names ++ [attrOf root (str "name")] }

/-- The suite-recording part of one loop iteration: a testsuite root
records its own name in both outputs; any other root records each direct
testsuite child via suiteStep. -/
def processSuites (st : ExtractOut) (root : XElem) : ExtractOut :=
  if root.tag = str "testsuite" then
    { st with
      testsuites := st.testsuites ++ attrOf root (str "name") ++ ['\n'],
      names := st.names ++ [attrOf root (str "name")] }
  else
    (findall (str "testsuite") root.children).foldl (suiteStep root) st

/-- The testcase-recording part of one loop iteration, for one direct
testcase child: with child elements it goes to the removed dump with a
separator line and each child serialized on its own line, otherwise its
identifier goes to the clean list. -/
def caseStep (s : ExtractOut) (tc : XElem) : ExtractOut :=
  match tc.children with
  | [] => { s with testcases := s.testcases ++ caseId tc ++ ['\n'] }
  | _ =>
    { s with
      removed := s.removed ++ str " ---------- " ++ caseId tc ++
        str " ----------\n" ++
        (tc.children.map (fun ch => serialize ch ++ ['\n'])).flatten }

def processCases (st : ExtractOut) (root : XElem) : ExtractOut :=
  (findall (str "testcase") root.children).foldl caseStep st

/-- One iteration of the report loop: record suites, then record the
direct testcase children of the root. -/
def processReport (st : ExtractOut) (root : XElem) : ExtractOut :=
  processCases (processSuites st root) root

/-- extract_test_info.py report loop over the parsed report documents,
starting from empty outputs. -/
def extract_test_info (roots : List XElem) : ExtractOut :=
  roots.foldl processReport ⟨[], [], [], []⟩

theorem caseStep_fields (s : ExtractOut) (tc : XElem) :
    (caseStep s tc).testsuites = s.testsuites ∧ (caseStep s tc).names = s.names := by
  unfold caseStep
  split <;> simp

theorem processCases_fields : ∀ (l : List XElem) (st : ExtractOut),
    (l.foldl caseStep st).testsuites = st.testsuites
    ∧ (l.foldl caseStep st).names = st.names := by
  intro l
  induction l with
  | nil => intro st; exact ⟨rfl, rfl⟩
  | cons x tl ih =>
    intro st
    simp only [List.foldl_cons]
    exact ⟨((ih (caseStep st x)).1).trans (caseStep_fields st x).1,
      ((ih (caseStep st x)).2).trans (caseStep_fields st x).2⟩

theorem suiteFold_eq (root : XElem) : ∀ (l : List XElem) (st : ExtractOut),
    (l.foldl (suiteStep root) st).testsuites =
      st.testsuites ++ (l.map (fun c => attrOf c (str "name") ++ ['\n'])).flatten
    ∧ (l.foldl (suiteStep root) st).names =
      st.names ++ l.map (fun _ => attrOf root (str "name"))
    ∧ (l.foldl (suiteStep root) st).testcases = st.testcases
    ∧ (l.foldl (suiteStep root) st).removed = st.removed := by
  intro l
  induction l with
  | nil => intro st; exact ⟨by simp, by simp, rfl, rfl⟩
  | cons x tl ih =>
    intro st
    simp only [List.foldl_cons, List.map_cons, List.flatten_cons]
    refine ⟨?_, ?_, ?_, ?_⟩
    · rw [(ih _).1]; simp [suiteStep, List.append_assoc]
    · rw [(ih _).2.1]; simp [suiteStep, List.append_assoc]
    · rw [(ih _).2.2.1]; simp [suiteStep]
    · rw [(ih _).2.2.2]; simp [suiteStep]

/-- Claim C4: for a report whose root is not a testsuite element, each
direct testsuite child contributes a suite-file line carrying the child's
own name attribute, while the in-memory testsuite_names list receives one
copy of the root element's name attribute per child instead. -/
theorem claim_C4 :
    ∀ (st : ExtractOut) (root : XElem), root.tag ≠ str "testsuite" →
      (processReport st root).testsuites =
        st.testsuites ++
          ((findall (str "testsuite") root.children).map
            (fun c => attrOf c (str "name") ++ ['\n'])).flatten
      ∧ (processReport st root).names =
        st.names ++
          (findall (str "testsuite") root.children).map
            (fun _ => attrOf root (str "name")) := by
  intro st root h
  unfold processReport processCases
  constructor
  · rw [(processCases_fields _ _).1]
    unfold processSuites
    rw [if_neg h]
    exact (suiteFold_eq root _ st).1
  · rw [(processCases_fields _ _).2]
    unfold processSuites
    rw [if_neg h]
    exact (suiteFold_eq root _ st).2.1

/-- Report document used for the claim C4 witness: a container root named
R with two testsuite children named A and B. -/
def c4Root : XElem :=
  XElem.mk (str "testsuites") [(str "name", str "R")] []
    [XElem.mk (str "testsuite") [(str "name", str "A")] [] [],
     XElem.mk (str "testsuite") [(str "name", str "B")] [] []]

/-- Witness for claim C4: the suite file receives the children's names A
and B while the in-memory list receives the root's name R twice. -/
theorem claim_C4_witness :
    (c4Root.tag ≠ str "testsuite")
    ∧ (processReport ⟨[], [], [], []⟩ c4Root).testsuites =
        [] ++
          ((findall (str "testsuite") c4Root.children).map
            (fun c => attrOf c (str "name") ++ ['\n'])).flatten
    ∧ (processReport ⟨[], [], [], []⟩ c4Root).names =
        [] ++
          (findall (str "testsuite") c4Root.children).map
            (fun _ => attrOf c4Root (str "name")) :=
  ⟨by decide,
   (claim_C4 ⟨[], [], [], []⟩ c4Root (by decide)).1,
   (claim_C4 ⟨[], [], [], []⟩ c4Root (by decide)).2⟩

/-- The failure child of the failing testcase in the claim C5 scenario. -/
def c5Failure : XElem :=
  XElem.mk (str "failure") [(str "message", str "boom")] (str "trace") []

/-- The clean testcase of the claim C5 scenario. -/
def c5Clean : XElem :=
  XElem.mk (str "testcase")
    [(str "classname", str "com.Foo"), (str "name", str "t1")] [] []

/-- The failing testcase of the claim C5 scenario. -/
def c5Failing : XElem :=
  XElem.mk (str "testcase")
    [(str "classname", str "com.Foo"), (str "name", str "t2")] [] [c5Failure]

/-- The claim C5 report document: a testsuite root with one clean and one
failing testcase child. -/
def c5Root : XElem :=
  XElem.mk (str "testsuite") [(str "name", str "SuiteA")] [] [c5Clean, c5Failing]

/-- Claim C5: running the extractor on that single report writes exactly
one clean line com.Foo#t1, exactly one removed block consisting of the
separator line for com.Foo#t2 followed by the serialized failure child on
its own line, and exactly one suite-name line SuiteA. -/
theorem claim_C5 :
    pyLines (extract_test_info [c5Root]).testcases = [str "com.Foo#t1"]
    ∧ (extract_test_info [c5Root]).removed =
        str " ---------- com.Foo#t2 ----------\n" ++ serialize c5Failure ++ ['\n']
    ∧ serialize c5Failure = str "<failure message=\"boom\">trace</failure>"
    ∧ pyLines (extract_test_info [c5Root]).testsuites = [str "SuiteA"] := by
  decide

theorem findall_eq_nil {t : Str} : ∀ {l : List XElem},
    (∀ c ∈ l, c.tag ≠ t) → findall t l = [] := by
  intro l
  induction l with
  | nil => intro _; rfl
  | cons x tl ih =>
    intro h
    simp only [findall]
    rw [if_neg (h x (by simp))]
    exact ih (fun c hc => h c (by simp [hc]))

/-- Claim C10 (amended): for a report document whose root is not a
testsuite element and whose direct children carry no testcase tag (the
container-of-testsuites shape), the extractor writes nothing to the
clean-test-cases file and nothing to the removed file: only direct
children of the root are scanned for testcase elements, so test cases
nested inside the testsuite children are silently ignored.  (A container
root with a direct testcase child, by contrast, does get that child
recorded — see the counterexample.) -/
theorem claim_C10 :
    ∀ (st : ExtractOut) (root : XElem),
      root.tag ≠ str "testsuite" →
      (∀ c ∈ root.children, c.tag ≠ str "testcase") →
      (processReport st root).testcases = st.testcases
      ∧ (processReport st root).removed = st.removed := by
  intro st root h hc
  unfold processReport processCases
  rw [findall_eq_nil hc]
  simp only [List.foldl_nil]
  unfold processSuites
  rw [if_neg h]
  exact ⟨(suiteFold_eq root _ st).2.2.1, (suiteFold_eq root _ st).2.2.2⟩

/-- Report document for the claim C10 counterexample: a non-testsuite root
holding a testcase as a direct child. -/
def c10Root : XElem :=
  XElem.mk (str "testsuites") [(str "name", str "R")] []
    [XElem.mk (str "testcase")
      [(str "classname", str "C"), (str "name", str "t")] [] []]

/-- Claim C10 counterexample: a non-testsuite-rooted document with a
direct testcase child does get a clean-file line, so the extractor does
not write nothing for every testcase in every such document. -/
theorem claim_C10_counterexample :
    c10Root.tag ≠ str "testsuite"
    ∧ (extract_test_info [c10Root]).testcases = str "C#t\n"
    ∧ (extract_test_info [c10Root]).testcases ≠ [] := by decide

/-- Report document for the claim C10 witness: a container whose only
child is a testsuite holding a nested testcase. -/
def c10WitnessRoot : XElem :=
  XElem.mk (str "testsuites") [(str "name", str "R")] []
    [XElem.mk (str "testsuite") [(str "name", str "A")] []
      [XElem.mk (str "testcase")
        [(str "classname", str "C"), (str "name", str "t")] [] []]]

/-- Witness for claim C10: the nested testcase produces neither a clean
line nor a removed block. -/
theorem claim_C10_witness :
    (c10WitnessRoot.tag ≠ str "testsuite")
    ∧ (∀ c ∈ c10WitnessRoot.children, c.tag ≠ str "testcase")
    ∧ (processReport ⟨[], [], [], []⟩ c10WitnessRoot).testcases = []
    ∧ (processReport ⟨[], [], [], []⟩ c10WitnessRoot).removed = [] :=
  ⟨by decide, by decide,
   (claim_C10 ⟨[], [], [], []⟩ c10WitnessRoot (by decide) (by decide)).1,
   (claim_C10 ⟨[], [], [], []⟩ c10WitnessRoot (by decide) (by decide)).2⟩
